import Mathlib

/-!
Verification of the packfile `Decoder` (package `packfile`) against its
specification.  The decoder source is embedded shallowly below: every
function of the source file (`NewDecoder`, `Decode`, `doDecode`,
`readObjects`, `readObjectsWithObjectStorer`, `readObjectsWithObjectStorerTx`,
`ReadObject`, `ReadObjectAt`, `fillRegularObjectContent`,
`fillREFDeltaObjectContent`, `fillOFSDeltaObjectContent`, `setOffset`,
`setCRC`, `recallByOffset`, `recallByHash`, `SetOffsets`) is translated to a
Lean definition of the same name.  External collaborators (the Scanner, the
object store, the delta applier) are not part of the source file and are
modelled from the spec, as marked in their doc comments.
-/

namespace Packfile

/-- Object type tags, from `plumbing.ObjectType`: the four regular kinds,
the two delta kinds, and an invalid tag (any other value). -/
inductive ObjType where
  | commit
  | tree
  | blob
  | tag
  | refDelta
  | ofsDelta
  | invalidT
deriving DecidableEq, Repr

/-- Index used when hashing an object, one per type tag. -/
def ObjType.idx : ObjType → Nat
  | .commit => 0
  | .tree => 1
  | .blob => 2
  | .tag => 3
  | .refDelta => 4
  | .ofsDelta => 5
  | .invalidT => 6

/-- A `plumbing.Object` / `plumbing.MemoryObject`: a type tag, a declared
size and a byte payload (bytes as naturals). -/
structure Obj where
  typ : ObjType
  size : Int
  content : List Nat
deriving DecidableEq, Repr

/-- Encoding of a byte list into a natural, used by the hash function. -/
def encodeList : List Nat → Nat
  | [] => 0
  | a :: r => Nat.pair (a + 1) (encodeList r)

/-- Modelled from the spec: the object hash is "derived from current
type/size/payload" (`hash = function of type, length, and bytes`); the
concrete hash function is external to the source file. -/
def objHash (o : Obj) : Nat := Nat.pair o.typ.idx (Nat.pair o.size.natAbs (encodeList o.content))

/-- Errors exposed by the decoder and its collaborators, mirroring the
error sentinels of the source file (§6 of the spec).  `rollback` carries
both the rollback error and the original set error, as `ErrRollback` with
`AddDetails` does. -/
inductive Err where
  | maxObjects
  | invalidObject (t : ObjType)
  | packEntryNotFound
  | zlib
  | cannotRecall
  | nonSeekable
  | objectNotFound
  | headerFail
  | seekFail
  | fuelOut
  | storeSet (n : Nat)
  | commitFail
  | rollbackFail
  | rollback (rerr serr : Err)
deriving DecidableEq, Repr

/-- One packed object as the Scanner frames it: type, declared length,
base reference (hash, for ref-deltas), offset reference field (for
ofs-deltas), decompressed body, CRC, fault-injection flags, and the
cursor position following this object. -/
structure Entry where
  typ : ObjType
  length : Int
  reference : Nat
  offsetReference : Int
  body : List Nat
  crc : Nat
  headerFails : Bool
  bodyFails : Bool
  nextPos : Int
deriving DecidableEq, Repr

/-- Modelled from the spec: the static data behind a Scanner (§6): whether
the underlying reader is seekable, the framed entries keyed by absolute
offset, the pack header data (version and announced object count, `none`
when reading the pack header fails), the trailing checksum, and the set of
offsets at which a seek fails. -/
structure Pack where
  isSeekable : Bool
  entries : List (Int × Entry)
  headerInfo : Option (Nat × Nat)
  checksum : Nat
  seekFails : List Int
deriving DecidableEq, Repr

/-- Modelled from the spec: an in-progress storage `Transaction` (§6):
staged objects, the index of the `SetObject` call that fails (if any), the
commit/rollback fault flags and the object lookup table backing
`Transaction.Object`. -/
structure Transaction where
  staged : List Obj
  failSetAt : Option Nat
  commitFails : Bool
  rollbackFails : Bool
  lookupTbl : List (Nat × Obj)
deriving DecidableEq, Repr

/-- Modelled from the spec: an `ObjectStorer` (§6): whether it also
implements `Transactioner`, its persisted objects, the index of the direct
`SetObject` call that fails (if any), and the fault data handed to the
transactions it begins. -/
structure Store where
  isTx : Bool
  objects : List Obj
  failSetAt : Option Nat
  txFailSetAt : Option Nat
  txCommitFails : Bool
  txRollbackFails : Bool
  txLookupTbl : List (Nat × Obj)
deriving DecidableEq, Repr

/-- The `Decoder` state: the Scanner's dynamic state (`pos`, `pending`),
the optional object store `o`, the `tx` field (of interface type
`storer.Transaction` in the source; `none` models the nil interface), and
the three index maps. -/
structure Decoder where
  pos : Int
  pending : Option Entry
  o : Option Store
  tx : Option Transaction
  offsetToHash : List (Int × Nat)
  hashToOffset : List (Nat × Int)
  crcs : List (Nat × Nat)
deriving DecidableEq, Repr

/-- Association-list lookup, modelling Go map indexing. -/
def alookup {α β : Type} [DecidableEq α] : List (α × β) → α → Option β
  | [], _ => none
  | (k, v) :: r, a => if a = k then some v else alookup r a

/-- Association-list insert, modelling Go map assignment: the new binding
shadows and removes any previous binding of the same key. -/
def ainsert {α β : Type} [DecidableEq α] (k : α) (v : β) (m : List (α × β)) : List (α × β) :=
  (k, v) :: m.filter (fun p => ¬(p.1 = k))

/-- The result of a decoder computation: a value with the post-state, an
error with the post-state (Go returns both), or a runtime crash (a Go
panic, e.g. a method call on a nil interface). -/
inductive DRes (α : Type) where
  | ok : α → Decoder → DRes α
  | err : Err → Decoder → DRes α
  | crash : DRes α
deriving DecidableEq, Repr

deriving instance DecidableEq for Except

/-- An object header as `Scanner.NextObjectHeader` yields it. -/
structure ObjHeader where
  typ : ObjType
  offset : Int
  length : Int
  reference : Nat
  offsetReference : Int
deriving DecidableEq, Repr

/-- Modelled from the spec: `Scanner.Header` returns the pack version and
announced object count, or fails. -/
def Header (P : Pack) : Except Err (Nat × Nat) :=
  match P.headerInfo with
  | some vc => .ok vc
  | none => .error .headerFail

/-- Modelled from the spec: `Scanner.NextObjectHeader` frames the object at
the current cursor and reports its header; the header's `offset` is the
absolute position of the object's header in the pack. -/
def NextObjectHeader (P : Pack) (d : Decoder) : Except Err ObjHeader × Decoder :=
  match alookup P.entries d.pos with
  | none => (.error .headerFail, d)
  | some e =>
    if e.headerFails then (.error .headerFail, d)
    else (.ok ⟨e.typ, d.pos, e.length, e.reference, e.offsetReference⟩,
          { d with pending := some e })

/-- Modelled from the spec: `Scanner.NextObject` streams the pending
object's decompressed body into the given writer and reports the byte
count and CRC; here the body is returned for the caller to append. -/
def NextObject (_P : Pack) (d : Decoder) : Except Err (Int × Nat × List Nat) × Decoder :=
  match d.pending with
  | none => (.error .zlib, d)
  | some e =>
    if e.bodyFails then (.error .zlib, { d with pending := none })
    else (.ok (e.length, e.crc, e.body), { d with pos := e.nextPos, pending := none })

/-- Modelled from the spec: `Scanner.Seek` moves the cursor to the given
offset and returns the previous offset; a failing seek leaves the cursor
in place. -/
def Seek (P : Pack) (d : Decoder) (offset : Int) : Except Err Int × Decoder :=
  if offset ∈ P.seekFails then (.error .seekFail, d)
  else (.ok d.pos, { d with pos := offset, pending := none })

/-- Modelled from the spec: `Scanner.Checksum` yields the trailing hash
over the entire pack. -/
def Checksum (P : Pack) : Nat := P.checksum

/-- Modelled from the spec: `ObjectStorer.SetObject` persists an object
and returns its hash; the `failSetAt`-th call fails. -/
def storeSetObject (st : Store) (obj : Obj) : Except Err Nat × Store :=
  if st.failSetAt = some st.objects.length then (.error (.storeSet st.objects.length), st)
  else (.ok (objHash obj), { st with objects := st.objects ++ [obj] })

/-- Modelled from the spec: `Transactioner.Begin` starts a fresh
transaction on the store. -/
def txBegin (st : Store) : Transaction :=
  ⟨[], st.txFailSetAt, st.txCommitFails, st.txRollbackFails, st.txLookupTbl⟩

/-- Modelled from the spec: `Transaction.SetObject` stages an object; the
`failSetAt`-th call fails. -/
def txSetObject (t : Transaction) (obj : Obj) : Except Err Nat × Transaction :=
  if t.failSetAt = some t.staged.length then (.error (.storeSet t.staged.length), t)
  else (.ok (objHash obj), { t with staged := t.staged ++ [obj] })

/-- Modelled from the spec: `Transaction.Object` looks an object up by
hash, returning `objectNotFound` when absent. -/
def txObject (t : Transaction) (h : Nat) : Except Err Obj :=
  match alookup t.lookupTbl h with
  | some obj => .ok obj
  | none => .error .objectNotFound

/-- Modelled from the spec: `Transaction.Commit` publishes the staged
objects (or fails). -/
def txCommit (t : Transaction) : Except Err (List Obj) :=
  if t.commitFails then .error .commitFail else .ok t.staged

/-- Modelled from the spec: `Transaction.Rollback` discards the staged
objects (or fails). -/
def txRollback (t : Transaction) : Except Err Unit :=
  if t.rollbackFails then .error .rollbackFail else .ok ()

/-- `NewDecoder`: fails with `ErrNonSeekable` when the scanner is not
seekable and no store is given; otherwise the decoder starts with empty
index maps (and its `tx` field left nil). -/
def NewDecoder (P : Pack) (o : Option Store) (pos0 : Int) : Except Err Decoder :=
  if P.isSeekable = false ∧ o = none then .error .nonSeekable
  else .ok ⟨pos0, none, o, none, [], [], []⟩

/-- `newObject`: a fresh writable object handle, either the store's
(modelled from the spec as a fresh empty object) or a fresh
`plumbing.MemoryObject`; both are empty. -/
def newObject (d : Decoder) : Obj :=
  match d.o with
  | none => ⟨.blob, 0, []⟩
  | some _ => ⟨.blob, 0, []⟩

/-- `setOffset`: insert the pair into both directions of the index. -/
def setOffset (d : Decoder) (h : Nat) (offset : Int) : Decoder :=
  { d with offsetToHash := ainsert offset h d.offsetToHash,
           hashToOffset := ainsert h offset d.hashToOffset }

/-- `setCRC`: record the CRC under the object's hash. -/
def setCRC (d : Decoder) (h : Nat) (crc : Nat) : Decoder :=
  { d with crcs := ainsert h crc d.crcs }

/-- `fillRegularObjectContent`: stream the body through the scanner's
decompression into the object and capture the CRC. -/
def fillRegularObjectContent (P : Pack) (d : Decoder) (obj : Obj) : DRes (Nat × Obj) :=
  match NextObject P d with
  | (.error e, d') => .err e d'
  | (.ok (_, crc, body), d') => .ok (crc, { obj with content := obj.content ++ body }) d'

/-- `fillREFDeltaObjectContent` body, parameterised by the `ReadObject`
callback used (through the recall) at the next recursion depth. -/
def fillREFGo (P : Pack) (recallH : Decoder → Nat → DRes Obj) (d : Decoder) (obj : Obj)
    (ref : Nat) : DRes (Nat × Obj) :=
  match NextObject P d with
  | (.error e, d') => .err e d'
  | (.ok (_, crc, buf), d1) =>
    match recallH d1 ref with
    | .err e d2 => .err e d2
    | .crash => .crash
    | .ok base d2 =>
      .ok (crc, { obj with typ := base.typ, content := base.content ++ buf }) d2

/-- `fillOFSDeltaObjectContent` body, parameterised by the recall used at
the next recursion depth.  Note the recall is invoked with the header's
`offsetReference` field exactly as received. -/
def fillOFSGo (P : Pack) (recallO : Decoder → Int → DRes Obj) (d : Decoder) (obj : Obj)
    (offset : Int) : DRes (Nat × Obj) :=
  match NextObject P d with
  | (.error e, d') => .err e d'
  | (.ok (_, crc, buf), d1) =>
    match recallO d1 offset with
    | .err e d2 => .err e d2
    | .crash => .crash
    | .ok base d2 =>
      .ok (crc, { obj with typ := base.typ, content := base.content ++ buf }) d2

/-- `ReadObjectAt` body, parameterised by the `ReadObject` callback: save
the pre-jump position, seek, read, and attempt the restoring seek on the
way out.  As in the source, the restoring seek's error is written to a
local variable captured by the deferred closure while the function's
results are unnamed, so it never reaches the caller. -/
def readObjectAtGo (P : Pack) (ro : Decoder → DRes Obj) (d : Decoder) (offset : Int) :
    DRes Obj :=
  if P.isSeekable = false then .err .nonSeekable d
  else
    match Seek P d offset with
    | (.error e, d') => .err e d'
    | (.ok beforeJump, d1) =>
      match ro d1 with
      | .ok obj d2 => .ok obj (Seek P d2 beforeJump).2
      | .err e d2 => .err e (Seek P d2 beforeJump).2
      | .crash => .crash

/-- `recallByOffset` body: seek-and-redecode when seekable, else look the
offset up in the index and fetch from the store through `d.tx` — a method
call on the nil `tx` interface, hence a crash. -/
def recallByOffsetGo (P : Pack) (roAt : Decoder → Int → DRes Obj) (d : Decoder) (o : Int) :
    DRes Obj :=
  if P.isSeekable then roAt d o
  else
    match alookup d.offsetToHash o with
    | some h =>
      match d.tx with
      | none => .crash
      | some t =>
        match txObject t h with
        | .ok obj => .ok obj d
        | .error e => .err e d
    | none => .err .objectNotFound d

/-- `recallByHash` body: seek-and-redecode when the hash is indexed and
the scanner is seekable; otherwise fetch from the store through `d.tx`
(a crash on the nil interface).  A store error other than
`objectNotFound` is propagated as is. -/
def recallByHashGo (P : Pack) (roAt : Decoder → Int → DRes Obj) (d : Decoder) (h : Nat) :
    DRes Obj :=
  match (if P.isSeekable then alookup d.hashToOffset h else none) with
  | some o => roAt d o
  | none =>
    match d.tx with
    | none => .crash
    | some t =>
      match txObject t h with
      | .ok obj => .ok obj d
      | .error e => if e = .objectNotFound then .err .objectNotFound d else .err e d

/-- The per-type dispatch of `ReadObject` (step 4 of the per-object
decode), parameterised by the `ReadObject` callback used, through the
recalls, at the next recursion depth. -/
def fillDispatch (P : Pack) (ro : Decoder → DRes Obj) (d1 : Decoder) (hd : ObjHeader) :
    DRes (Nat × Obj) :=
  match hd.typ with
  | .commit | .tree | .blob | .tag =>
    fillRegularObjectContent P d1 { newObject d1 with size := hd.length, typ := hd.typ }
  | .refDelta =>
    fillREFGo P
      (fun d' r => recallByHashGo P (fun d'' o => readObjectAtGo P ro d'' o) d' r)
      d1 { newObject d1 with size := hd.length, typ := hd.typ } hd.reference
  | .ofsDelta =>
    fillOFSGo P
      (fun d' r => recallByOffsetGo P (fun d'' o => readObjectAtGo P ro d'' o) d' r)
      d1 { newObject d1 with size := hd.length, typ := hd.typ } hd.offsetReference
  | _ => .err (.invalidObject hd.typ) d1

/-- `ReadObject`, with fuel bounding the recursion depth of delta-base
resolution: pull a header, allocate a fresh handle, set size and type,
dispatch on the type, and on success compute the hash and update the
three index maps. -/
def ReadObject (P : Pack) : Nat → Decoder → DRes Obj
  | 0, d => .err .fuelOut d
  | f + 1, d =>
    match NextObjectHeader P d with
    | (.error e, d') => .err e d'
    | (.ok h, d1) =>
      match fillDispatch P (fun dd => ReadObject P f dd) d1 h with
      | .err e d2 => .err e d2
      | .crash => .crash
      | .ok (crc, obj2) d2 =>
        let hash := objHash obj2
        .ok obj2 (setCRC (setOffset d2 hash h.offset) hash crc)

/-- `ReadObjectAt` at a given recursion fuel. -/
def ReadObjectAt (P : Pack) (fuel : Nat) (d : Decoder) (offset : Int) : DRes Obj :=
  readObjectAtGo P (fun dd => ReadObject P fuel dd) d offset

/-- `recallByOffset` at a given recursion fuel. -/
def recallByOffset (P : Pack) (fuel : Nat) (d : Decoder) (o : Int) : DRes Obj :=
  recallByOffsetGo P (fun d' off => ReadObjectAt P fuel d' off) d o

/-- `recallByHash` at a given recursion fuel. -/
def recallByHash (P : Pack) (fuel : Nat) (d : Decoder) (h : Nat) : DRes Obj :=
  recallByHashGo P (fun d' off => ReadObjectAt P fuel d' off) d h

/-- `fillREFDeltaObjectContent` at a given recursion fuel. -/
def fillREFDeltaObjectContent (P : Pack) (fuel : Nat) (d : Decoder) (obj : Obj) (ref : Nat) :
    DRes (Nat × Obj) :=
  fillREFGo P (fun d' r => recallByHash P fuel d' r) d obj ref

/-- `fillOFSDeltaObjectContent` at a given recursion fuel. -/
def fillOFSDeltaObjectContent (P : Pack) (fuel : Nat) (d : Decoder) (obj : Obj)
    (offset : Int) : DRes (Nat × Obj) :=
  fillOFSGo P (fun d' r => recallByOffset P fuel d' r) d obj offset

/-- `readObjects`: decode `count` objects, discarding them. -/
def readObjects (P : Pack) (fuel : Nat) : Nat → Decoder → DRes Unit
  | 0, d => .ok () d
  | n + 1, d =>
    match ReadObject P fuel d with
    | .err e d' => .err e d'
    | .crash => .crash
    | .ok _ d' => readObjects P fuel n d'

/-- `readObjectsWithObjectStorer`: decode each object and set it on the
store immediately. -/
def readObjectsWithObjectStorer (P : Pack) (fuel : Nat) : Nat → Decoder → DRes Unit
  | 0, d => .ok () d
  | n + 1, d =>
    match ReadObject P fuel d with
    | .err e d' => .err e d'
    | .crash => .crash
    | .ok obj d' =>
      match d'.o with
      | none => .crash
      | some st =>
        match storeSetObject st obj with
        | (.error e, st') => .err e { d' with o := some st' }
        | (.ok _, st') => readObjectsWithObjectStorer P fuel n { d' with o := some st' }

/-- The loop of `readObjectsWithObjectStorerTx`: set each decoded object
through the local transaction; on a set failure, roll back through the
`d.tx` field (nil, hence a crash); commit when the loop finishes. -/
def readObjectsTxLoop (P : Pack) (fuel : Nat) : Nat → Decoder → Transaction → DRes Unit
  | 0, d, t =>
    match txCommit t with
    | .error e => .err e d
    | .ok staged =>
      .ok () { d with o := d.o.map (fun st => { st with objects := st.objects ++ staged }) }
  | n + 1, d, t =>
    match ReadObject P fuel d with
    | .err e d' => .err e d'
    | .crash => .crash
    | .ok obj d' =>
      match txSetObject t obj with
      | (.ok _, t') => readObjectsTxLoop P fuel n d' t'
      | (.error e, _) =>
        match d'.tx with
        | none => .crash
        | some t0 =>
          match txRollback t0 with
          | .error rerr => .err (.rollback rerr e) d'
          | .ok _ => .err e d'

/-- `readObjectsWithObjectStorerTx`: begin a transaction on the store and
run the transactional loop. -/
def readObjectsWithObjectStorerTx (P : Pack) (fuel : Nat) (count : Nat) (d : Decoder) :
    DRes Unit :=
  match d.o with
  | none => .crash
  | some st => readObjectsTxLoop P fuel count d (txBegin st)

/-- `doDecode`: read the pack header and run one of the three loops,
chosen by store presence and transaction capability. -/
def doDecode (P : Pack) (fuel : Nat) (d : Decoder) : DRes Unit :=
  match Header P with
  | .error e => .err e d
  | .ok (_, count) =>
    match d.o with
    | none => readObjects P fuel count d
    | some st =>
      if st.isTx then readObjectsWithObjectStorerTx P fuel count d
      else readObjectsWithObjectStorer P fuel count d

/-- `Decode`: run `doDecode` and on success return the scanner's trailing
checksum. -/
def Decode (P : Pack) (fuel : Nat) (d : Decoder) : DRes Nat :=
  match doDecode P fuel d with
  | .err e d' => .err e d'
  | .crash => .crash
  | .ok _ d' => .ok (Checksum P) d'

/-- `SetOffsets`: bulk-replace the `hash → offset` map. -/
def SetOffsets (d : Decoder) (offsets : List (Nat × Int)) : Decoder :=
  { d with hashToOffset := offsets }

/-- `Offsets`: read accessor for the `hash → offset` map. -/
def Offsets (d : Decoder) : List (Nat × Int) := d.hashToOffset

/-- `CRCs`: read accessor for the `hash → crc` map. -/
def CRCs (d : Decoder) : List (Nat × Nat) := d.crcs

/-! Projections on results, used to state properties of runs. -/

/-- The decoder state carried by a non-crashing result. -/
def resDecoder {α : Type} : DRes α → Option Decoder
  | .ok _ d => some d
  | .err _ d => some d
  | .crash => none

/-- The value of a successful result. -/
def resVal {α : Type} : DRes α → Option α
  | .ok a _ => some a
  | _ => none

/-- The payload of a successfully read object. -/
def resContent (r : DRes Obj) : Option (List Nat) :=
  (resVal r).map Obj.content

/-- The four non-delta object kinds. -/
def plainType : ObjType → Bool
  | .commit | .tree | .blob | .tag => true
  | _ => false

/-- The object a non-delta entry decodes to. -/
def entryObj (e : Entry) : Obj := ⟨e.typ, e.length, e.body⟩

/-- The hash of the object a non-delta entry decodes to. -/
def entryHash (e : Entry) : Nat := objHash (entryObj e)

/-- `chainB P p es` holds when the entries `es` sit consecutively in the
pack starting at offset `p`, all of them healthy non-delta objects. -/
def chainB (P : Pack) : Int → List Entry → Bool
  | _, [] => true
  | p, e :: r =>
    decide (alookup P.entries p = some e) && !e.headerFails && !e.bodyFails &&
      plainType e.typ && chainB P e.nextPos r

/-- Frame property of a decoder computation: the `tx` field is never
assigned, and an error outcome leaves the three index maps untouched. -/
def Pres {α : Type} (g : Decoder → DRes α) : Prop :=
  ∀ d : Decoder,
    (∀ a d', g d = .ok a d' → d'.tx = d.tx) ∧
    (∀ e d', g d = .err e d' →
      d'.tx = d.tx ∧ d'.offsetToHash = d.offsetToHash ∧
      d'.hashToOffset = d.hashToOffset ∧ d'.crcs = d.crcs)

/-- Weaker frame property for the decoding loops: the `tx` field is never
assigned, whatever the outcome. -/
def TxPres {α : Type} (g : Decoder → DRes α) : Prop :=
  ∀ d : Decoder,
    (∀ a d', g d = .ok a d' → d'.tx = d.tx) ∧
    (∀ e d', g d = .err e d' → d'.tx = d.tx)

/-! Concrete packs, stores and decoder states used by the witnesses,
counterexamples and evaluations below. -/

/-- A healthy one-byte blob entry. -/
def e1 : Entry := ⟨.blob, 1, 0, 0, [7], 11, false, false, 40⟩

/-- A pack holding a single blob at offset 12, announcing one object. -/
def P1 : Pack := ⟨true, [(12, e1)], some (2, 1), 99, []⟩

/-- A transactional store whose first transactional `SetObject` fails. -/
def st1 : Store := ⟨true, [], none, some 0, false, false, []⟩

/-- A fresh decoder on `P1` without a store, cursor at the first entry. -/
def d1n : Decoder := ⟨12, none, none, none, [], [], []⟩

/-- A fresh decoder on `P1` holding the failing transactional store. -/
def d1s : Decoder := ⟨12, none, some st1, none, [], [], []⟩

/-- Blob of content `[1]` at offset 30 of `P2`. -/
def eA : Entry := ⟨.blob, 1, 0, 0, [1], 11, false, false, 40⟩

/-- Blob of content `[2]` at offset 70 of `P2`. -/
def eB : Entry := ⟨.blob, 1, 0, 0, [2], 12, false, false, 80⟩

/-- OfsDelta at offset 100 of `P2` whose header offset-reference is 30. -/
def eD : Entry := ⟨.ofsDelta, 1, 0, 30, [9], 13, false, false, 130⟩

/-- A seekable pack with blobs at 30 and 70 and an ofs-delta at 100. -/
def P2 : Pack := ⟨true, [(30, eA), (70, eB), (100, eD)], some (2, 3), 99, []⟩

/-- A fresh storeless decoder used for random-access reads. -/
def d2 : Decoder := ⟨12, none, none, none, [], [], []⟩

/-- A blob at offset 100; the scanner fails any seek to offset 12. -/
def P3 : Pack := ⟨true, [(100, ⟨.blob, 1, 0, 0, [7], 11, false, false, 150⟩)], some (2, 1), 99, [12]⟩

/-- A fresh storeless decoder whose cursor 12 cannot be seeked back to. -/
def d3 : Decoder := ⟨12, none, none, none, [], [], []⟩

/-- A blob at offset 200; the scanner fails any seek to offset 12. -/
def P4 : Pack := ⟨true, [(200, ⟨.blob, 2, 0, 0, [3, 4], 21, false, false, 260⟩)], some (2, 1), 99, [12]⟩

/-- A fresh storeless decoder at cursor 12 for `P4`. -/
def d4 : Decoder := ⟨12, none, none, none, [], [], []⟩

/-- A fresh decoder at cursor 0 with no store. -/
def d0 : Decoder := ⟨0, none, none, none, [], [], []⟩

/-- An empty pack announcing zero objects. -/
def P7 : Pack := ⟨true, [], some (2, 0), 99, []⟩

/-- A pack with two identical blobs (same payload, hence same hash). -/
def P9 : Pack :=
  ⟨true, [(12, ⟨.blob, 1, 0, 0, [7], 5, false, false, 40⟩),
          (40, ⟨.blob, 1, 0, 0, [7], 6, false, false, 60⟩)], some (2, 2), 99, []⟩

/-- A fresh storeless decoder at the first entry of `P9`. -/
def d9 : Decoder := ⟨12, none, none, none, [], [], []⟩

/-- A pack with two blobs of distinct payloads. -/
def P9w : Pack :=
  ⟨true, [(12, ⟨.blob, 1, 0, 0, [7], 5, false, false, 40⟩),
          (40, ⟨.blob, 1, 0, 0, [8], 6, false, false, 60⟩)], some (2, 2), 99, []⟩

/-- A non-seekable pack. -/
def Pn : Pack := ⟨false, [], some (2, 0), 99, []⟩

/-- A plain non-transactional store. -/
def stn : Store := ⟨false, [], none, none, false, false, []⟩

/-- The decoder `NewDecoder` builds on `Pn` with the store `stn`. -/
def dn8 : Decoder := ⟨0, none, some stn, none, [], [], []⟩

/-- A decoder on a non-seekable scanner whose offset index knows offset 7. -/
def dna : Decoder := ⟨0, none, some stn, none, [(7, 3)], [], []⟩

/-- The parametric three-entry pack behind the OfsDelta recall theorem:
blobs with payloads `c1` at offset 30 and `c2` at offset 70, and at
offset 100 an ofs-delta whose header offset-reference field is 30 and
whose delta body is `b`. -/
def ofsPack (c1 c2 b : List Nat) : Pack :=
  ⟨true, [(30, ⟨.blob, 1, 0, 0, c1, 11, false, false, 40⟩),
          (70, ⟨.blob, 1, 0, 0, c2, 12, false, false, 80⟩),
          (100, ⟨.ofsDelta, 1, 0, 30, b, 13, false, false, 130⟩)], some (2, 3), 99, []⟩

/-- A decoder positioned at 13, where `P1` has no entry. -/
def dE : Decoder := ⟨13, none, none, none, [], [], []⟩

/-- The decoder state after `ReadObject P1 1 d1n` succeeds
(26884227 is `objHash ⟨.blob, 1, [7]⟩`). -/
def dOkRes : Decoder := ⟨40, none, none, none, [(12, 26884227)], [(26884227, 12)], [(26884227, 11)]⟩

/-- The object decoded from the single entry of `P1`. -/
def objW : Obj := ⟨.blob, 1, [7]⟩

/-- The decoder state after `ReadObject P1 1 d1s` succeeds. -/
def d1sRes : Decoder :=
  ⟨40, none, some st1, none, [(12, 26884227)], [(26884227, 12)], [(26884227, 11)]⟩

/-- The entry list of `P9w` in pack order. -/
def esW : List Entry :=
  [⟨.blob, 1, 0, 0, [7], 5, false, false, 40⟩, ⟨.blob, 1, 0, 0, [8], 6, false, false, 60⟩]

/-! Basic lemmas about the association-list maps. -/

theorem alookup_ainsert_self {α β : Type} [DecidableEq α] (k : α) (v : β) (m : List (α × β)) :
    alookup (ainsert k v m) k = some v := by
  simp [ainsert, alookup]

theorem ainsert_fresh {α β : Type} [DecidableEq α] (k : α) (v : β) (m : List (α × β))
    (h : k ∉ m.map Prod.fst) : ainsert k v m = (k, v) :: m := by
  unfold ainsert
  congr 1
  refine List.filter_eq_self.2 ?_
  intro a ha
  simp only [decide_eq_true_eq, decide_not]
  have : a.1 ≠ k := by
    intro he
    exact h (he ▸ List.mem_map_of_mem Prod.fst ha)
  simp [this]

/-! Frame lemmas for the scanner operations: they touch only the cursor
and the pending entry, never the store, the `tx` field or the index. -/

theorem newObject_eq (d : Decoder) : newObject d = ⟨.blob, 0, []⟩ := by
  unfold newObject
  cases d.o <;> rfl

theorem NextObjectHeader_frame (P : Pack) (d : Decoder) :
    (NextObjectHeader P d).2.tx = d.tx ∧ (NextObjectHeader P d).2.o = d.o ∧
    (NextObjectHeader P d).2.offsetToHash = d.offsetToHash ∧
    (NextObjectHeader P d).2.hashToOffset = d.hashToOffset ∧
    (NextObjectHeader P d).2.crcs = d.crcs ∧ (NextObjectHeader P d).2.pos = d.pos := by
  unfold NextObjectHeader
  cases alookup P.entries d.pos with
  | none => simp
  | some e => by_cases h : e.headerFails <;> simp [h]

theorem NextObject_frame (P : Pack) (d : Decoder) :
    (NextObject P d).2.tx = d.tx ∧ (NextObject P d).2.o = d.o ∧
    (NextObject P d).2.offsetToHash = d.offsetToHash ∧
    (NextObject P d).2.hashToOffset = d.hashToOffset ∧
    (NextObject P d).2.crcs = d.crcs := by
  unfold NextObject
  cases d.pending with
  | none => simp
  | some e => by_cases h : e.bodyFails <;> simp [h]

theorem Seek_frame (P : Pack) (d : Decoder) (offset : Int) :
    (Seek P d offset).2.tx = d.tx ∧ (Seek P d offset).2.o = d.o ∧
    (Seek P d offset).2.offsetToHash = d.offsetToHash ∧
    (Seek P d offset).2.hashToOffset = d.hashToOffset ∧
    (Seek P d offset).2.crcs = d.crcs := by
  unfold Seek
  by_cases h : offset ∈ P.seekFails <;> simp [h]

theorem Seek_ok_pos (P : Pack) (d : Decoder) (offset : Int) (h : offset ∉ P.seekFails) :
    Seek P d offset = (.ok d.pos, { d with pos := offset, pending := none }) := by
  simp [Seek, h]

/-! Preservation lemmas: no decoder operation assigns the `tx` field, and
an error outcome leaves the three index maps untouched. -/

theorem pres_fillRegular (P : Pack) (obj : Obj) :
    Pres (fun d => fillRegularObjectContent P d obj) := by
  intro d
  have hf := NextObject_frame P d
  constructor
  · intro a d' h
    beta_reduce at h
    unfold fillRegularObjectContent at h
    rcases hN : NextObject P d with ⟨r, dm⟩
    rw [hN] at h hf
    cases r with
    | error e => exact absurd h (by simp)
    | ok x =>
      rcases x with ⟨n, crc, body⟩
      simp only at h
      cases h
      exact hf.1
  · intro e d' h
    beta_reduce at h
    unfold fillRegularObjectContent at h
    rcases hN : NextObject P d with ⟨r, dm⟩
    rw [hN] at h hf
    cases r with
    | error e0 =>
      simp only at h
      cases h
      exact ⟨hf.1, hf.2.2.1, hf.2.2.2.1, hf.2.2.2.2⟩
    | ok x =>
      rcases x with ⟨n, crc, body⟩
      exact absurd h (by simp)

theorem pres_fillREFGo (P : Pack) (recallH : Decoder → Nat → DRes Obj)
    (hrec : ∀ r, Pres (fun d => recallH d r)) (obj : Obj) (ref : Nat) :
    Pres (fun d => fillREFGo P recallH d obj ref) := by
  intro d
  have hf := NextObject_frame P d
  constructor
  · intro a d' h
    beta_reduce at h
    unfold fillREFGo at h
    rcases hN : NextObject P d with ⟨r, dm⟩
    rw [hN] at h hf
    cases r with
    | error e => exact absurd h (by simp)
    | ok x =>
      rcases x with ⟨n, crc, buf⟩
      simp only at h
      rcases hR : recallH dm ref with _ | _ | _
      case ok base d2 =>
        rw [hR] at h
        cases h
        exact ((hrec ref dm).1 _ _ hR).trans hf.1
      case err e d2 => rw [hR] at h; exact absurd h (by simp)
      case crash => rw [hR] at h; exact absurd h (by simp)
  · intro e d' h
    beta_reduce at h
    unfold fillREFGo at h
    rcases hN : NextObject P d with ⟨r, dm⟩
    rw [hN] at h hf
    cases r with
    | error e0 =>
      simp only at h
      cases h
      exact ⟨hf.1, hf.2.2.1, hf.2.2.2.1, hf.2.2.2.2⟩
    | ok x =>
      rcases x with ⟨n, crc, buf⟩
      simp only at h
      rcases hR : recallH dm ref with _ | _ | _
      case ok base d2 => rw [hR] at h; exact absurd h (by simp)
      case err e0 d2 =>
        rw [hR] at h
        cases h
        have := (hrec ref dm).2 _ _ hR
        exact ⟨this.1.trans hf.1, this.2.1.trans hf.2.2.1,
               this.2.2.1.trans hf.2.2.2.1, this.2.2.2.trans hf.2.2.2.2⟩
      case crash => rw [hR] at h; exact absurd h (by simp)

theorem pres_fillOFSGo (P : Pack) (recallO : Decoder → Int → DRes Obj)
    (hrec : ∀ r, Pres (fun d => recallO d r)) (obj : Obj) (offset : Int) :
    Pres (fun d => fillOFSGo P recallO d obj offset) := by
  intro d
  have hf := NextObject_frame P d
  constructor
  · intro a d' h
    beta_reduce at h
    unfold fillOFSGo at h
    rcases hN : NextObject P d with ⟨r, dm⟩
    rw [hN] at h hf
    cases r with
    | error e => exact absurd h (by simp)
    | ok x =>
      rcases x with ⟨n, crc, buf⟩
      simp only at h
      rcases hR : recallO dm offset with _ | _ | _
      case ok base d2 =>
        rw [hR] at h
        cases h
        exact ((hrec offset dm).1 _ _ hR).trans hf.1
      case err e d2 => rw [hR] at h; exact absurd h (by simp)
      case crash => rw [hR] at h; exact absurd h (by simp)
  · intro e d' h
    beta_reduce at h
    unfold fillOFSGo at h
    rcases hN : NextObject P d with ⟨r, dm⟩
    rw [hN] at h hf
    cases r with
    | error e0 =>
      simp only at h
      cases h
      exact ⟨hf.1, hf.2.2.1, hf.2.2.2.1, hf.2.2.2.2⟩
    | ok x =>
      rcases x with ⟨n, crc, buf⟩
      simp only at h
      rcases hR : recallO dm offset with _ | _ | _
      case ok base d2 => rw [hR] at h; exact absurd h (by simp)
      case err e0 d2 =>
        rw [hR] at h
        cases h
        have := (hrec offset dm).2 _ _ hR
        exact ⟨this.1.trans hf.1, this.2.1.trans hf.2.2.1,
               this.2.2.1.trans hf.2.2.2.1, this.2.2.2.trans hf.2.2.2.2⟩
      case crash => rw [hR] at h; exact absurd h (by simp)

theorem pres_readObjectAtGo (P : Pack) (ro : Decoder → DRes Obj) (hro : Pres ro)
    (offset : Int) : Pres (fun d => readObjectAtGo P ro d offset) := by
  intro d
  constructor
  · intro a d' h
    beta_reduce at h
    unfold readObjectAtGo at h
    by_cases hs : P.isSeekable = false
    · rw [if_pos hs] at h; exact absurd h (by simp)
    · rw [if_neg hs] at h
      rcases hS : Seek P d offset with ⟨r, dm⟩
      have hf := Seek_frame P d offset
      rw [hS] at h hf
      cases r with
      | error e => exact absurd h (by simp)
      | ok bj =>
        simp only at h
        rcases hR : ro dm with ⟨obj, d2⟩ | ⟨e0, d2⟩ | _
        · rw [hR] at h
          simp only at h
          cases h
          have hf2 := Seek_frame P d2 bj
          exact hf2.1.trans (((hro dm).1 _ _ hR).trans hf.1)
        · rw [hR] at h; exact absurd h (by simp)
        · rw [hR] at h; exact absurd h (by simp)
  · intro e d' h
    beta_reduce at h
    unfold readObjectAtGo at h
    by_cases hs : P.isSeekable = false
    · rw [if_pos hs] at h
      cases h
      exact ⟨rfl, rfl, rfl, rfl⟩
    · rw [if_neg hs] at h
      rcases hS : Seek P d offset with ⟨r, dm⟩
      have hf := Seek_frame P d offset
      rw [hS] at h hf
      cases r with
      | error e0 =>
        simp only at h
        cases h
        exact ⟨hf.1, hf.2.2.1, hf.2.2.2.1, hf.2.2.2.2⟩
      | ok bj =>
        simp only at h
        rcases hR : ro dm with ⟨obj, d2⟩ | ⟨e0, d2⟩ | _
        · rw [hR] at h; exact absurd h (by simp)
        · rw [hR] at h
          simp only at h
          cases h
          have hf2 := Seek_frame P d2 bj
          have hp := (hro dm).2 _ _ hR
          exact ⟨hf2.1.trans (hp.1.trans hf.1),
                 hf2.2.2.1.trans (hp.2.1.trans hf.2.2.1),
                 hf2.2.2.2.1.trans (hp.2.2.1.trans hf.2.2.2.1),
                 hf2.2.2.2.2.trans (hp.2.2.2.trans hf.2.2.2.2)⟩
        · rw [hR] at h; exact absurd h (by simp)

theorem pres_recallByOffsetGo (P : Pack) (roAt : Decoder → Int → DRes Obj)
    (hro : ∀ off, Pres (fun d => roAt d off)) (o : Int) :
    Pres (fun d => recallByOffsetGo P roAt d o) := by
  intro d
  constructor
  · intro a d' h
    beta_reduce at h
    unfold recallByOffsetGo at h
    by_cases hs : P.isSeekable
    · rw [if_pos hs] at h
      exact (hro o d).1 _ _ h
    · rw [if_neg hs] at h
      rcases hL : alookup d.offsetToHash o with _ | hh
      · rw [hL] at h; exact absurd h (by simp)
      · rw [hL] at h
        simp only at h
        rcases hT : d.tx with _ | t
        · rw [hT] at h; exact absurd h (by simp)
        · rw [hT] at h
          simp only at h
          rcases hO : txObject t hh with ⟨e0⟩ | ⟨obj⟩
          · rw [hO] at h; exact absurd h (by simp)
          · rw [hO] at h
            simp only at h
            cases h
            exact hT
  · intro e d' h
    beta_reduce at h
    unfold recallByOffsetGo at h
    by_cases hs : P.isSeekable
    · rw [if_pos hs] at h
      exact (hro o d).2 _ _ h
    · rw [if_neg hs] at h
      rcases hL : alookup d.offsetToHash o with _ | hh
      · rw [hL] at h
        simp only at h
        cases h
        exact ⟨rfl, rfl, rfl, rfl⟩
      · rw [hL] at h
        simp only at h
        rcases hT : d.tx with _ | t
        · rw [hT] at h; exact absurd h (by simp)
        · rw [hT] at h
          simp only at h
          rcases hO : txObject t hh with ⟨e0⟩ | ⟨obj⟩
          · rw [hO] at h
            simp only at h
            cases h
            exact ⟨hT, rfl, rfl, rfl⟩
          · rw [hO] at h; exact absurd h (by simp)

theorem pres_recallByHashGo (P : Pack) (roAt : Decoder → Int → DRes Obj)
    (hro : ∀ off, Pres (fun d => roAt d off)) (hsh : Nat) :
    Pres (fun d => recallByHashGo P roAt d hsh) := by
  intro d
  constructor
  · intro a d' h
    beta_reduce at h
    unfold recallByHashGo at h
    rcases hL : (if P.isSeekable then alookup d.hashToOffset hsh else none) with _ | o
    · rw [hL] at h
      simp only at h
      rcases hT : d.tx with _ | t
      · rw [hT] at h; exact absurd h (by simp)
      · rw [hT] at h
        simp only at h
        rcases hO : txObject t hsh with ⟨e0⟩ | ⟨obj⟩
        · rw [hO] at h
          simp only at h
          by_cases he : e0 = Err.objectNotFound
          · rw [if_pos he] at h; exact absurd h (by simp)
          · rw [if_neg he] at h; exact absurd h (by simp)
        · rw [hO] at h
          simp only at h
          cases h
          exact hT
    · rw [hL] at h
      exact (hro o d).1 _ _ h
  · intro e d' h
    beta_reduce at h
    unfold recallByHashGo at h
    rcases hL : (if P.isSeekable then alookup d.hashToOffset hsh else none) with _ | o
    · rw [hL] at h
      simp only at h
      rcases hT : d.tx with _ | t
      · rw [hT] at h; exact absurd h (by simp)
      · rw [hT] at h
        simp only at h
        rcases hO : txObject t hsh with ⟨e0⟩ | ⟨obj⟩
        · rw [hO] at h
          simp only at h
          by_cases he : e0 = Err.objectNotFound
          · rw [if_pos he] at h; cases h; exact ⟨hT, rfl, rfl, rfl⟩
          · rw [if_neg he] at h; cases h; exact ⟨hT, rfl, rfl, rfl⟩
        · rw [hO] at h; exact absurd h (by simp)
    · rw [hL] at h
      exact (hro o d).2 _ _ h

theorem pres_fillDispatch (P : Pack) (ro : Decoder → DRes Obj) (hro : Pres ro)
    (hd : ObjHeader) : Pres (fun d1 => fillDispatch P ro d1 hd) := by
  have hat : ∀ off, Pres (fun d => readObjectAtGo P ro d off) :=
    fun off => pres_readObjectAtGo P ro hro off
  intro d1
  constructor
  · intro a d' h
    beta_reduce at h
    unfold fillDispatch at h
    rcases hty : hd.typ
    case commit =>
      rw [hty] at h; simp only at h
      exact (pres_fillRegular P _ d1).1 _ _ h
    case tree =>
      rw [hty] at h; simp only at h
      exact (pres_fillRegular P _ d1).1 _ _ h
    case blob =>
      rw [hty] at h; simp only at h
      exact (pres_fillRegular P _ d1).1 _ _ h
    case tag =>
      rw [hty] at h; simp only at h
      exact (pres_fillRegular P _ d1).1 _ _ h
    case refDelta =>
      rw [hty] at h; simp only at h
      exact (pres_fillREFGo P _ (fun r => pres_recallByHashGo P _ hat r) _ _ d1).1 _ _ h
    case ofsDelta =>
      rw [hty] at h; simp only at h
      exact (pres_fillOFSGo P _ (fun r => pres_recallByOffsetGo P _ hat r) _ _ d1).1 _ _ h
    case invalidT =>
      rw [hty] at h; simp only at h
      exact absurd h (by simp)
  · intro e d' h
    beta_reduce at h
    unfold fillDispatch at h
    rcases hty : hd.typ
    case commit =>
      rw [hty] at h; simp only at h
      exact (pres_fillRegular P _ d1).2 _ _ h
    case tree =>
      rw [hty] at h; simp only at h
      exact (pres_fillRegular P _ d1).2 _ _ h
    case blob =>
      rw [hty] at h; simp only at h
      exact (pres_fillRegular P _ d1).2 _ _ h
    case tag =>
      rw [hty] at h; simp only at h
      exact (pres_fillRegular P _ d1).2 _ _ h
    case refDelta =>
      rw [hty] at h; simp only at h
      exact (pres_fillREFGo P _ (fun r => pres_recallByHashGo P _ hat r) _ _ d1).2 _ _ h
    case ofsDelta =>
      rw [hty] at h; simp only at h
      exact (pres_fillOFSGo P _ (fun r => pres_recallByOffsetGo P _ hat r) _ _ d1).2 _ _ h
    case invalidT =>
      rw [hty] at h; simp only at h
      cases h
      exact ⟨rfl, rfl, rfl, rfl⟩

theorem pres_ReadObject (P : Pack) : ∀ fuel : Nat, Pres (ReadObject P fuel) := by
  intro fuel
  induction fuel with
  | zero =>
    intro d
    constructor
    · intro a d' h; exact absurd h (by simp [ReadObject])
    · intro e d' h
      unfold ReadObject at h
      cases h
      exact ⟨rfl, rfl, rfl, rfl⟩
  | succ f ih =>
    intro d
    have hfr := NextObjectHeader_frame P d
    constructor
    · intro a d' h
      unfold ReadObject at h
      rcases hH : NextObjectHeader P d with ⟨r, dm⟩
      rw [hH] at h hfr
      simp only at hfr
      cases r with
      | error e => exact absurd h (by simp)
      | ok hd =>
        simp only at h
        rcases hF : fillDispatch P (fun dd => ReadObject P f dd) dm hd with
          ⟨⟨crc, obj2⟩, d2⟩ | ⟨e0, d2⟩ | _
        · rw [hF] at h
          simp only at h
          cases h
          have h2 := (pres_fillDispatch P _ ih hd dm).1 _ _ hF
          simp only [setCRC, setOffset]
          exact h2.trans hfr.1
        · rw [hF] at h; exact absurd h (by simp)
        · rw [hF] at h; exact absurd h (by simp)
    · intro e d' h
      unfold ReadObject at h
      rcases hH : NextObjectHeader P d with ⟨r, dm⟩
      rw [hH] at h hfr
      simp only at hfr
      cases r with
      | error e0 =>
        simp only at h
        cases h
        exact ⟨hfr.1, hfr.2.2.1, hfr.2.2.2.1, hfr.2.2.2.2.1⟩
      | ok hd =>
        simp only at h
        rcases hF : fillDispatch P (fun dd => ReadObject P f dd) dm hd with
          ⟨⟨crc, obj2⟩, d2⟩ | ⟨e0, d2⟩ | _
        · rw [hF] at h; exact absurd h (by simp)
        · rw [hF] at h
          simp only at h
          cases h
          have h2 := (pres_fillDispatch P _ ih hd dm).2 _ _ hF
          exact ⟨h2.1.trans hfr.1, h2.2.1.trans hfr.2.2.1,
                 h2.2.2.1.trans hfr.2.2.2.1, h2.2.2.2.trans hfr.2.2.2.2.1⟩
        · rw [hF] at h; exact absurd h (by simp)

/-! Loop-level `tx` preservation, and facts feeding the claim theorems. -/

theorem txpres_of_pres {α : Type} (g : Decoder → DRes α) (h : Pres g) : TxPres g :=
  fun d => ⟨(h d).1, fun e d' he => ((h d).2 e d' he).1⟩

theorem txpres_readObjects (P : Pack) (fuel : Nat) :
    ∀ n : Nat, TxPres (fun d => readObjects P fuel n d) := by
  intro n
  induction n with
  | zero =>
    intro d
    constructor
    · intro a d' h
      beta_reduce at h
      unfold readObjects at h
      cases h
      rfl
    · intro e d' h
      beta_reduce at h
      unfold readObjects at h
      exact absurd h (by simp)
  | succ m ih =>
    intro d
    constructor
    · intro a d' h
      beta_reduce at h
      unfold readObjects at h
      rcases hR : ReadObject P fuel d with ⟨obj, dm⟩ | ⟨e0, dm⟩ | _
      · rw [hR] at h
        simp only at h
        have h1 := (pres_ReadObject P fuel d).1 _ _ hR
        have h2 := (ih dm).1 _ _ h
        exact h2.trans h1
      · rw [hR] at h; exact absurd h (by simp)
      · rw [hR] at h; exact absurd h (by simp)
    · intro e d' h
      beta_reduce at h
      unfold readObjects at h
      rcases hR : ReadObject P fuel d with ⟨obj, dm⟩ | ⟨e0, dm⟩ | _
      · rw [hR] at h
        simp only at h
        have h1 := (pres_ReadObject P fuel d).1 _ _ hR
        have h2 := (ih dm).2 _ _ h
        exact h2.trans h1
      · rw [hR] at h
        simp only at h
        cases h
        exact ((pres_ReadObject P fuel d).2 _ _ hR).1
      · rw [hR] at h; exact absurd h (by simp)

theorem txpres_readObjectsWithObjectStorer (P : Pack) (fuel : Nat) :
    ∀ n : Nat, TxPres (fun d => readObjectsWithObjectStorer P fuel n d) := by
  intro n
  induction n with
  | zero =>
    intro d
    constructor
    · intro a d' h
      beta_reduce at h
      unfold readObjectsWithObjectStorer at h
      cases h
      rfl
    · intro e d' h
      beta_reduce at h
      unfold readObjectsWithObjectStorer at h
      exact absurd h (by simp)
  | succ m ih =>
    intro d
    constructor
    · intro a d' h
      beta_reduce at h
      unfold readObjectsWithObjectStorer at h
      rcases hR : ReadObject P fuel d with ⟨obj, dm⟩ | ⟨e0, dm⟩ | _
      · rw [hR] at h
        simp only at h
        have h1 := (pres_ReadObject P fuel d).1 _ _ hR
        rcases hO : dm.o with _ | st
        · rw [hO] at h; exact absurd h (by simp)
        · rw [hO] at h
          simp only at h
          rcases hS : storeSetObject st obj with ⟨rs, st2⟩
          rw [hS] at h
          cases rs with
          | error e1 => exact absurd h (by simp)
          | ok hsh =>
            simp only at h
            have h2 := (ih { dm with o := some st2 }).1 _ _ h
            exact h2.trans h1
      · rw [hR] at h; exact absurd h (by simp)
      · rw [hR] at h; exact absurd h (by simp)
    · intro e d' h
      beta_reduce at h
      unfold readObjectsWithObjectStorer at h
      rcases hR : ReadObject P fuel d with ⟨obj, dm⟩ | ⟨e0, dm⟩ | _
      · rw [hR] at h
        simp only at h
        have h1 := (pres_ReadObject P fuel d).1 _ _ hR
        rcases hO : dm.o with _ | st
        · rw [hO] at h; exact absurd h (by simp)
        · rw [hO] at h
          simp only at h
          rcases hS : storeSetObject st obj with ⟨rs, st2⟩
          rw [hS] at h
          cases rs with
          | error e1 =>
            simp only at h
            cases h
            exact h1
          | ok hsh =>
            simp only at h
            have h2 := (ih { dm with o := some st2 }).2 _ _ h
            exact h2.trans h1
      · rw [hR] at h
        simp only at h
        cases h
        exact ((pres_ReadObject P fuel d).2 _ _ hR).1
      · rw [hR] at h; exact absurd h (by simp)

theorem txpres_readObjectsTxLoop (P : Pack) (fuel : Nat) :
    ∀ (n : Nat) (t : Transaction), TxPres (fun d => readObjectsTxLoop P fuel n d t) := by
  intro n
  induction n with
  | zero =>
    intro t d
    constructor
    · intro a d' h
      beta_reduce at h
      unfold readObjectsTxLoop at h
      rcases hC : txCommit t with ⟨e0⟩ | ⟨staged⟩
      · rw [hC] at h; exact absurd h (by simp)
      · rw [hC] at h
        simp only at h
        cases h
        rfl
    · intro e d' h
      beta_reduce at h
      unfold readObjectsTxLoop at h
      rcases hC : txCommit t with ⟨e0⟩ | ⟨staged⟩
      · rw [hC] at h
        simp only at h
        cases h
        rfl
      · rw [hC] at h; exact absurd h (by simp)
  | succ m ih =>
    intro t d
    constructor
    · intro a d' h
      beta_reduce at h
      unfold readObjectsTxLoop at h
      rcases hR : ReadObject P fuel d with ⟨obj, dm⟩ | ⟨e0, dm⟩ | _
      · rw [hR] at h
        simp only at h
        have h1 := (pres_ReadObject P fuel d).1 _ _ hR
        rcases hS : txSetObject t obj with ⟨rs, t2⟩
        rw [hS] at h
        cases rs with
        | ok hsh =>
          simp only at h
          exact ((ih t2 dm).1 _ _ h).trans h1
        | error e1 =>
          simp only at h
          rcases hT : dm.tx with _ | t0
          · rw [hT] at h; exact absurd h (by simp)
          · rw [hT] at h
            simp only at h
            rcases hRb : txRollback t0 with ⟨e2⟩ | ⟨u⟩
            · rw [hRb] at h; exact absurd h (by simp)
            · rw [hRb] at h; exact absurd h (by simp)
      · rw [hR] at h; exact absurd h (by simp)
      · rw [hR] at h; exact absurd h (by simp)
    · intro e d' h
      beta_reduce at h
      unfold readObjectsTxLoop at h
      rcases hR : ReadObject P fuel d with ⟨obj, dm⟩ | ⟨e0, dm⟩ | _
      · rw [hR] at h
        simp only at h
        have h1 := (pres_ReadObject P fuel d).1 _ _ hR
        rcases hS : txSetObject t obj with ⟨rs, t2⟩
        rw [hS] at h
        cases rs with
        | ok hsh =>
          simp only at h
          exact ((ih t2 dm).2 _ _ h).trans h1
        | error e1 =>
          simp only at h
          rcases hT : dm.tx with _ | t0
          · rw [hT] at h; exact absurd h (by simp)
          · rw [hT] at h
            simp only at h
            rcases hRb : txRollback t0 with ⟨e2⟩ | ⟨u⟩
            · rw [hRb] at h
              simp only at h
              cases h
              exact hT.symm ▸ h1
            · rw [hRb] at h
              simp only at h
              cases h
              exact hT.symm ▸ h1
      · rw [hR] at h
        simp only at h
        cases h
        exact ((pres_ReadObject P fuel d).2 _ _ hR).1
      · rw [hR] at h; exact absurd h (by simp)

theorem txpres_doDecode (P : Pack) (fuel : Nat) : TxPres (doDecode P fuel) := by
  intro d
  constructor
  · intro a d' h
    unfold doDecode at h
    rcases hHd : Header P with ⟨e0⟩ | ⟨vc⟩
    · rw [hHd] at h; exact absurd h (by simp)
    · rw [hHd] at h
      rcases vc with ⟨v, count⟩
      simp only at h
      rcases hO : d.o with _ | st
      · rw [hO] at h
        simp only at h
        exact (txpres_readObjects P fuel count d).1 _ _ h
      · rw [hO] at h
        simp only at h
        by_cases hTx : st.isTx
        · rw [if_pos hTx] at h
          unfold readObjectsWithObjectStorerTx at h
          rw [hO] at h
          simp only at h
          exact (txpres_readObjectsTxLoop P fuel count (txBegin st) d).1 _ _ h
        · rw [if_neg hTx] at h
          exact (txpres_readObjectsWithObjectStorer P fuel count d).1 _ _ h
  · intro e d' h
    unfold doDecode at h
    rcases hHd : Header P with ⟨e0⟩ | ⟨vc⟩
    · rw [hHd] at h
      simp only at h
      cases h
      rfl
    · rw [hHd] at h
      rcases vc with ⟨v, count⟩
      simp only at h
      rcases hO : d.o with _ | st
      · rw [hO] at h
        simp only at h
        exact (txpres_readObjects P fuel count d).2 _ _ h
      · rw [hO] at h
        simp only at h
        by_cases hTx : st.isTx
        · rw [if_pos hTx] at h
          unfold readObjectsWithObjectStorerTx at h
          rw [hO] at h
          simp only at h
          exact (txpres_readObjectsTxLoop P fuel count (txBegin st) d).2 _ _ h
        · rw [if_neg hTx] at h
          exact (txpres_readObjectsWithObjectStorer P fuel count d).2 _ _ h

theorem txpres_Decode (P : Pack) (fuel : Nat) : TxPres (Decode P fuel) := by
  intro d
  constructor
  · intro a d' h
    unfold Decode at h
    rcases hD : doDecode P fuel d with ⟨u, dm⟩ | ⟨e0, dm⟩ | _
    · rw [hD] at h
      simp only at h
      cases h
      exact (txpres_doDecode P fuel d).1 _ _ hD
    · rw [hD] at h; exact absurd h (by simp)
    · rw [hD] at h; exact absurd h (by simp)
  · intro e d' h
    unfold Decode at h
    rcases hD : doDecode P fuel d with ⟨u, dm⟩ | ⟨e0, dm⟩ | _
    · rw [hD] at h; exact absurd h (by simp)
    · rw [hD] at h
      simp only at h
      cases h
      exact (txpres_doDecode P fuel d).2 _ _ hD
    · rw [hD] at h; exact absurd h (by simp)

/-! Per-object facts: a successful `ReadObject` ends by inserting into all
three maps, and a healthy non-delta entry decodes to a fully determined
result state. -/

theorem NextObjectHeader_ok_offset (P : Pack) (d dm : Decoder) (hd : ObjHeader)
    (h : NextObjectHeader P d = (.ok hd, dm)) : hd.offset = d.pos := by
  unfold NextObjectHeader at h
  rcases hL : alookup P.entries d.pos with _ | e
  · rw [hL] at h; exact absurd h (by simp)
  · rw [hL] at h
    simp only at h
    by_cases hf : e.headerFails
    · rw [if_pos hf] at h; exact absurd h (by simp)
    · rw [if_neg hf] at h
      simp only [Prod.mk.injEq, Except.ok.injEq] at h
      rw [← h.1]

theorem ReadObject_ok_inserts (P : Pack) (fuel : Nat) (d : Decoder) (obj : Obj) (d' : Decoder)
    (h : ReadObject P fuel d = .ok obj d') :
    alookup d'.offsetToHash d.pos = some (objHash obj) ∧
    alookup d'.hashToOffset (objHash obj) = some d.pos ∧
    (alookup d'.crcs (objHash obj)).isSome = true := by
  cases fuel with
  | zero => exact absurd h (by simp [ReadObject])
  | succ f =>
    unfold ReadObject at h
    rcases hH : NextObjectHeader P d with ⟨r, dm⟩
    rw [hH] at h
    cases r with
    | error e => exact absurd h (by simp)
    | ok hd =>
      simp only at h
      rcases hF : fillDispatch P (fun dd => ReadObject P f dd) dm hd with
        ⟨⟨crc, obj2⟩, d2⟩ | ⟨e0, d2⟩ | _
      · rw [hF] at h
        simp only at h
        cases h
        have hoff : hd.offset = d.pos := NextObjectHeader_ok_offset P d dm hd hH
        refine ⟨?_, ?_, ?_⟩
        · rw [← hoff]
          simp [setCRC, setOffset, alookup_ainsert_self]
        · rw [← hoff]
          simp [setCRC, setOffset, alookup_ainsert_self]
        · simp [setCRC, alookup_ainsert_self]
      · rw [hF] at h; exact absurd h (by simp)
      · rw [hF] at h; exact absurd h (by simp)

theorem ReadObject_plain (P : Pack) (f : Nat) (d : Decoder) (e : Entry)
    (he : alookup P.entries d.pos = some e) (hh : e.headerFails = false)
    (hb : e.bodyFails = false) (hty : plainType e.typ = true) :
    ReadObject P (f + 1) d = .ok (entryObj e)
      { d with
        pos := e.nextPos
        pending := none
        offsetToHash := ainsert d.pos (entryHash e) d.offsetToHash
        hashToOffset := ainsert (entryHash e) d.pos d.hashToOffset
        crcs := ainsert (entryHash e) e.crc d.crcs } := by
  have hNOH : NextObjectHeader P d =
      (.ok ⟨e.typ, d.pos, e.length, e.reference, e.offsetReference⟩,
       { d with pending := some e }) := by
    unfold NextObjectHeader
    rw [he]
    simp [hh]
  have hFill : fillDispatch P (fun dd => ReadObject P f dd) { d with pending := some e }
      ⟨e.typ, d.pos, e.length, e.reference, e.offsetReference⟩ =
      .ok (e.crc, entryObj e) { d with pos := e.nextPos, pending := none } := by
    unfold fillDispatch
    rcases hty2 : e.typ
    case refDelta => rw [hty2] at hty; exact absurd hty (by simp [plainType])
    case ofsDelta => rw [hty2] at hty; exact absurd hty (by simp [plainType])
    case invalidT => rw [hty2] at hty; exact absurd hty (by simp [plainType])
    all_goals
      simp only [fillRegularObjectContent, NextObject, newObject_eq, hb, entryObj, hty2,
        Bool.false_eq_true, if_false, List.nil_append]
  unfold ReadObject
  rw [hNOH]
  simp only
  rw [hFill]
  simp only [setOffset, setCRC, entryHash]

theorem alookup_map_fst_ainsert {α β : Type} [DecidableEq α] (k : α) (v : β)
    (m : List (α × β)) (h : k ∉ m.map Prod.fst) :
    (ainsert k v m).map Prod.fst = k :: m.map Prod.fst := by
  rw [ainsert_fresh k v m h]
  rfl

theorem readObjects_plain (P : Pack) (g : Nat) :
    ∀ (es : List Entry) (d : Decoder),
      chainB P d.pos es = true →
      (es.map entryHash).Nodup →
      (∀ x ∈ es.map entryHash, x ∉ d.crcs.map Prod.fst) →
      ∃ d', readObjects P (g + 1) es.length d = .ok () d' ∧
            d'.crcs.map Prod.fst = (es.map entryHash).reverse ++ d.crcs.map Prod.fst ∧
            d'.o = d.o := by
  intro es
  induction es with
  | nil =>
    intro d _ _ _
    exact ⟨d, rfl, by simp, rfl⟩
  | cons e r ih =>
    intro d hch hnd hfresh
    unfold chainB at hch
    simp only [Bool.and_eq_true, decide_eq_true_eq, Bool.not_eq_true'] at hch
    obtain ⟨⟨⟨⟨he, hh⟩, hb⟩, hty⟩, hrest⟩ := hch
    have hstep := ReadObject_plain P g d e he hh hb hty
    have hfreshe : entryHash e ∉ d.crcs.map Prod.fst := hfresh _ (by simp)
    have hnd2 : (r.map entryHash).Nodup := (List.nodup_cons.1 hnd).2
    have hne : entryHash e ∉ r.map entryHash := (List.nodup_cons.1 hnd).1
    obtain ⟨d', hrun, hmap, ho⟩ :=
      ih { d with
            pos := e.nextPos
            pending := none
            offsetToHash := ainsert d.pos (entryHash e) d.offsetToHash
            hashToOffset := ainsert (entryHash e) d.pos d.hashToOffset
            crcs := ainsert (entryHash e) e.crc d.crcs }
        hrest hnd2
        (by
          intro x hx
          simp only [alookup_map_fst_ainsert (entryHash e) e.crc d.crcs hfreshe,
            List.mem_cons]
          rintro (hxe | hxold)
          · exact hne (hxe ▸ hx)
          · exact hfresh x (List.mem_cons_of_mem _ hx) hxold)
    refine ⟨d', ?_, ?_, ho⟩
    · show readObjects P (g + 1) (r.length + 1) d = .ok () d'
      unfold readObjects
      rw [hstep]
      exact hrun
    · rw [hmap]
      simp only [alookup_map_fst_ainsert (entryHash e) e.crc d.crcs hfreshe]
      simp [List.append_assoc]

/-! The claim theorems. -/

/-- C1: during a transactional decode in which the transaction's
`SetObject` fails, the source invokes `Rollback` on the decoder's `tx`
field, which is never assigned (a nil interface), instead of on the live
local transaction: the decode crashes, so no rollback happens and no
error — of kind `RollbackError` or otherwise — is returned.  This
evaluates the code at the failing input (`P1` holds one healthy blob and
`st1` is transactional with its first `SetObject` failing). -/
theorem C1_txSetFailure_crashes :
    st1.isTx = true ∧ st1.txFailSetAt = some 0 ∧
    (NewDecoder P1 (some st1) 12).toOption = some d1s ∧
    Decode P1 3 d1s = DRes.crash := by
  decide

/-- C2 counterexample: the OfsDelta at offset 100 of `P2` has
offset-reference field 30; the claim predicts its base at 100 − 30 = 70
(the blob `[2]`, which would produce content `[2, 9]`), but the decoder
recalls the base at offset 30 itself (the blob `[1]`), producing `[1, 9]`. -/
theorem C2_counterexample :
    resContent (ReadObjectAt P2 5 d2 100) = some [1, 9] ∧
    resContent (ReadObjectAt P2 5 d2 100) ≠ some [2, 9] := by
  decide

/-- C2 amended: the decoder passes the header's offset-reference field to
`recallByOffset` unchanged, so the base is recalled at the field's value
(here 30, yielding content `c1 ++ b`), not at `offset − field`; the spec's
`O − Δ` base location is obtained only if the scanner already stored the
subtracted offset in the field. -/
theorem C2_recall_uses_field_value (c1 c2 b : List Nat) :
    resContent (ReadObjectAt (ofsPack c1 c2 b) 5 d2 100) = some (c1 ++ b) := rfl

/-- C3: evaluation at the failing input: reading the object at offset 100
of `P3` succeeds, the restoring seek back to the saved position 12 fails
(12 is in `seekFails`), yet `ReadObjectAt` returns success with no error
and the cursor left at 150 — the deferred closure writes the restoration
error to a local variable while the function's results are unnamed, so the
error never reaches the caller. -/
theorem C3_restore_error_swallowed :
    d3.pos = 12 ∧ (12 : Int) ∈ P3.seekFails ∧
    ReadObjectAt P3 2 d3 100 =
      DRes.ok ⟨.blob, 1, [7]⟩
        ⟨150, none, none, none, [(100, 26884227)], [(26884227, 100)], [(26884227, 11)]⟩ := by
  decide

/-- C4 counterexample: when the restoring seek fails (position 12 is in
`P4.seekFails`), `ReadObjectAt` returns with the cursor at 260, not at the
pre-call position 12 — the cursor is not restored on every exit path. -/
theorem C4_counterexample :
    d4.pos = 12 ∧
    (resDecoder (ReadObjectAt P4 2 d4 200)).map Decoder.pos = some 260 ∧
    (resDecoder (ReadObjectAt P4 2 d4 200)).map Decoder.pos ≠ some d4.pos := by
  decide

/-- C4 amended: provided the seek back to the saved pre-jump position
succeeds (the position is not a failing seek target), the cursor after any
successful or failed `ReadObjectAt` equals the cursor before the call; the
restoration is attempted on every exit path after a successful jump. -/
theorem C4_cursor_restored (P : Pack) (fuel : Nat) (d : Decoder) (offset : Int)
    (h : d.pos ∉ P.seekFails) :
    (resDecoder (ReadObjectAt P fuel d offset)).map Decoder.pos = none ∨
    (resDecoder (ReadObjectAt P fuel d offset)).map Decoder.pos = some d.pos := by
  unfold ReadObjectAt readObjectAtGo
  by_cases hs : P.isSeekable = false
  · rw [if_pos hs]
    right
    rfl
  · rw [if_neg hs]
    by_cases hm : offset ∈ P.seekFails
    · unfold Seek
      rw [if_pos hm]
      right
      rfl
    · unfold Seek
      rw [if_neg hm]
      simp only
      rcases hR : ReadObject P fuel { d with pos := offset, pending := none } with
        ⟨obj, d2⟩ | ⟨e0, d2⟩ | _
      all_goals simp [resDecoder, h]

/-- C4 witness: a run with a healthy restore seek, via `C4_cursor_restored`. -/
theorem C4_cursor_restored_witness :
    d2.pos ∉ P2.seekFails ∧
    ((resDecoder (ReadObjectAt P2 5 d2 100)).map Decoder.pos = none ∨
     (resDecoder (ReadObjectAt P2 5 d2 100)).map Decoder.pos = some d2.pos) :=
  ⟨by decide, C4_cursor_restored P2 5 d2 100 (by decide)⟩

/-- C5 counterexample: after `SetOffsets` installs the binding `1 ↦ 5`,
`hashToOffset` knows it but `offsetToHash` does not — the two maps are not
mutual inverses at that point, refuting the claim for sequences that
include `SetOffsets`. -/
theorem C5_counterexample :
    alookup (SetOffsets d0 [(1, 5)]).hashToOffset 1 = some 5 ∧
    alookup (SetOffsets d0 [(1, 5)]).offsetToHash 5 = none := by
  decide

/-- C5 amended: each `setOffset` insertion establishes both directed
entries (`offsetToHash[o] = h` and `hashToOffset[h] = o`), but
`SetOffsets` replaces only the `hash → offset` map and leaves
`offsetToHash` untouched, so the mutual-inverse property does not survive
`SetOffsets`. -/
theorem C5_setOffset_inverse (d : Decoder) (h : Nat) (o : Int) (m : List (Nat × Int)) :
    alookup (setOffset d h o).offsetToHash o = some h ∧
    alookup (setOffset d h o).hashToOffset h = some o ∧
    (SetOffsets d m).offsetToHash = d.offsetToHash ∧
    (SetOffsets d m).hashToOffset = m := by
  refine ⟨?_, ?_, rfl, rfl⟩ <;> simp [setOffset, alookup_ainsert_self]

/-- C6: `ReadObject` updates the index atomically and only on success —
on any error outcome the three maps are exactly as before the call, and on
success the object's offset and hash are bound in both directions and its
CRC is recorded under its hash. -/
theorem C6_index_atomic (P : Pack) (fuel : Nat) (d : Decoder) :
    (∀ e d', ReadObject P fuel d = .err e d' →
      d'.offsetToHash = d.offsetToHash ∧ d'.hashToOffset = d.hashToOffset ∧
      d'.crcs = d.crcs) ∧
    (∀ obj d', ReadObject P fuel d = .ok obj d' →
      alookup d'.offsetToHash d.pos = some (objHash obj) ∧
      alookup d'.hashToOffset (objHash obj) = some d.pos ∧
      (alookup d'.crcs (objHash obj)).isSome = true) := by
  constructor
  · intro e d' h
    have hp := (pres_ReadObject P fuel d).2 _ _ h
    exact ⟨hp.2.1, hp.2.2.1, hp.2.2.2⟩
  · intro obj d' h
    exact ReadObject_ok_inserts P fuel d obj d' h

/-- C6 witness: a failing read (no entry at position 13 of `P1`) leaves
the maps empty, and the successful read of `P1`'s blob inserts into all
three maps; both via `C6_index_atomic`. -/
theorem C6_index_atomic_witness :
    (dE.offsetToHash = dE.offsetToHash ∧ dE.hashToOffset = dE.hashToOffset ∧
     dE.crcs = dE.crcs) ∧
    (alookup dOkRes.offsetToHash d1n.pos = some (objHash objW) ∧
     alookup dOkRes.hashToOffset (objHash objW) = some d1n.pos ∧
     (alookup dOkRes.crcs (objHash objW)).isSome = true) :=
  ⟨(C6_index_atomic P1 1 dE).1 Err.headerFail dE (by decide),
   (C6_index_atomic P1 1 d1n).2 objW dOkRes (by decide)⟩

/-- C7: `Decode` returns the Scanner's trailing checksum on success, and
for a pack announcing zero objects (store absent) it succeeds immediately
with the checksum and an unchanged decoder state — in particular all three
index maps stay as they were (empty, for a fresh decoder). -/
theorem C7_decode_checksum (P : Pack) (fuel : Nat) (d : Decoder) :
    (∀ h d', Decode P fuel d = .ok h d' → h = Checksum P) ∧
    (∀ v, P.headerInfo = some (v, 0) → d.o = none →
      Decode P fuel d = .ok (Checksum P) d) := by
  constructor
  · intro h d' hr
    unfold Decode at hr
    rcases hD : doDecode P fuel d with ⟨u, dm⟩ | ⟨e0, dm⟩ | _
    · rw [hD] at hr
      simp only at hr
      cases hr
      rfl
    · rw [hD] at hr; exact absurd hr (by simp)
    · rw [hD] at hr; exact absurd hr (by simp)
  · intro v h1 h2
    unfold Decode doDecode Header
    rw [h1, h2]
    rfl

/-- C7 witness: the empty pack `P7` announces zero objects; a fresh
storeless decoder decodes to the trailing checksum with empty maps, via
`C7_decode_checksum`. -/
theorem C7_decode_checksum_witness :
    P7.headerInfo = some (2, 0) ∧ d0.o = none ∧
    Decode P7 1 d0 = .ok (Checksum P7) d0 ∧
    d0.offsetToHash = [] ∧ d0.hashToOffset = [] ∧ d0.crcs = [] :=
  ⟨rfl, rfl, (C7_decode_checksum P7 1 d0).2 2 rfl rfl, rfl, rfl, rfl⟩

/-- C8: `NewDecoder` fails — and fails with `nonSeekable` — exactly when
the scanner is not seekable and no store is given; with a store present it
always succeeds (whatever the seekability), and on a non-seekable scanner
any `ReadObjectAt` fails with `nonSeekable` leaving the decoder as is. -/
theorem C8_nonseekable_contract :
    (∀ (P : Pack) (o : Option Store) (p0 : Int),
      NewDecoder P o p0 = .error .nonSeekable ↔ P.isSeekable = false ∧ o = none) ∧
    (∀ (P : Pack) (st : Store) (p0 : Int),
      NewDecoder P (some st) p0 = .ok ⟨p0, none, some st, none, [], [], []⟩) ∧
    (∀ (P : Pack) (fuel : Nat) (d : Decoder) (offset : Int), P.isSeekable = false →
      ReadObjectAt P fuel d offset = .err .nonSeekable d) := by
  refine ⟨?_, ?_, ?_⟩
  · intro P o p0
    unfold NewDecoder
    by_cases hc : P.isSeekable = false ∧ o = none
    · rw [if_pos hc]
      simp [hc]
    · rw [if_neg hc]
      simp [hc]
  · intro P st p0
    unfold NewDecoder
    rw [if_neg (by simp)]
  · intro P fuel d offset hns
    unfold ReadObjectAt readObjectAtGo
    rw [if_pos hns]

/-- C8 witness: the non-seekable pack `Pn` without a store is rejected
with `nonSeekable`; with the store `stn` construction succeeds and
`ReadObjectAt` fails with `nonSeekable`; via `C8_nonseekable_contract`. -/
theorem C8_nonseekable_contract_witness :
    NewDecoder Pn none 0 = .error .nonSeekable ∧
    NewDecoder Pn (some stn) 0 = .ok dn8 ∧
    Pn.isSeekable = false ∧
    ReadObjectAt Pn 1 dn8 5 = .err .nonSeekable dn8 :=
  ⟨(C8_nonseekable_contract.1 Pn none 0).2 ⟨rfl, rfl⟩,
   C8_nonseekable_contract.2.1 Pn stn 0,
   rfl,
   C8_nonseekable_contract.2.2 Pn 1 dn8 5 rfl⟩

/-- C9 counterexample: `P9` announces two objects but both blobs carry the
same payload, hence the same hash; the decode succeeds yet `crcs` ends up
with a single entry, not `count = 2`. -/
theorem C9_counterexample :
    P9.headerInfo = some (2, 2) ∧
    resVal (Decode P9 2 d9) = some (Checksum P9) ∧
    (resDecoder (Decode P9 2 d9)).map (fun d' => d'.crcs.length) = some 1 := by
  decide

/-- C9 amended: after a successful store-less decode of a pack whose
announced objects are non-delta entries with pairwise distinct hashes,
starting from an empty CRC map, `crcs` holds exactly `count` entries; with
duplicate hashes the entries collapse (one entry per distinct hash). -/
theorem C9_crc_count_distinct (P : Pack) (g v n : Nat) (d : Decoder) (es : List Entry)
    (h1 : P.headerInfo = some (v, n)) (h2 : d.o = none) (h3 : d.crcs = [])
    (h4 : chainB P d.pos es = true) (h5 : es.length = n)
    (h6 : (es.map entryHash).Nodup) :
    resVal (Decode P (g + 1) d) = some (Checksum P) ∧
    (resDecoder (Decode P (g + 1) d)).map (fun d' => d'.crcs.length) = some n := by
  obtain ⟨d', hrun, hmap, ho⟩ := readObjects_plain P g es d h4 h6 (by simp [h3])
  have hdo : doDecode P (g + 1) d = .ok () d' := by
    unfold doDecode Header
    rw [h1, h2]
    simp only
    rw [← h5]
    exact hrun
  have hlen : d'.crcs.length = n := by
    have hc := congrArg List.length hmap
    simpa [h3, h5] using hc
  unfold Decode
  rw [hdo]
  simp [resVal, resDecoder, hlen]

/-- C9 witness: two distinct blobs in `P9w` decode to exactly two CRC
entries, via `C9_crc_count_distinct`. -/
theorem C9_crc_count_distinct_witness :
    chainB P9w d9.pos esW = true ∧ (esW.map entryHash).Nodup ∧
    (resVal (Decode P9w 1 d9) = some (Checksum P9w) ∧
     (resDecoder (Decode P9w 1 d9)).map (fun d' => d'.crcs.length) = some 2) :=
  ⟨by decide, by decide,
   C9_crc_count_distinct P9w 0 2 2 d9 esW rfl rfl rfl (by decide) rfl (by decide)⟩

/-- C10: no decoder operation ever assigns the `tx` field (`Decode`,
`ReadObject` and `SetOffsets` all preserve it), and every path that
dereferences it — the store fallback of `recallByOffset` on a non-seekable
scanner with an indexed offset, the store fallback of `recallByHash` when
the scanner is non-seekable or the hash is not indexed, and the rollback
after a failed transactional `SetObject` — crashes on the nil transaction
instead of reaching the store or rolling back. -/
theorem C10_tx_nil :
    (∀ (P : Pack) (fuel : Nat) (d : Decoder) (h : Nat) (d' : Decoder),
       Decode P fuel d = .ok h d' → d'.tx = d.tx) ∧
    (∀ (P : Pack) (fuel : Nat) (d : Decoder) (e : Err) (d' : Decoder),
       Decode P fuel d = .err e d' → d'.tx = d.tx) ∧
    (∀ (P : Pack) (fuel : Nat) (d : Decoder) (obj : Obj) (d' : Decoder),
       ReadObject P fuel d = .ok obj d' → d'.tx = d.tx) ∧
    (∀ (P : Pack) (fuel : Nat) (d : Decoder) (e : Err) (d' : Decoder),
       ReadObject P fuel d = .err e d' → d'.tx = d.tx) ∧
    (∀ (d : Decoder) (m : List (Nat × Int)), (SetOffsets d m).tx = d.tx) ∧
    (∀ (P : Pack) (fuel : Nat) (d : Decoder) (o : Int) (hsh : Nat),
       P.isSeekable = false → alookup d.offsetToHash o = some hsh → d.tx = none →
       recallByOffset P fuel d o = .crash) ∧
    (∀ (P : Pack) (fuel : Nat) (d : Decoder) (hsh : Nat),
       P.isSeekable = false ∨ alookup d.hashToOffset hsh = none → d.tx = none →
       recallByHash P fuel d hsh = .crash) ∧
    (∀ (P : Pack) (fuel n : Nat) (d : Decoder) (t : Transaction) (obj : Obj)
       (d' : Decoder) (e : Err) (t' : Transaction),
       d.tx = none → ReadObject P fuel d = .ok obj d' →
       txSetObject t obj = (.error e, t') →
       readObjectsTxLoop P fuel (n + 1) d t = .crash) := by
  refine ⟨?_, ?_, ?_, ?_, ?_, ?_, ?_, ?_⟩
  · intro P fuel d h d' hr
    exact (txpres_Decode P fuel d).1 _ _ hr
  · intro P fuel d e d' hr
    exact (txpres_Decode P fuel d).2 _ _ hr
  · intro P fuel d obj d' hr
    exact (pres_ReadObject P fuel d).1 _ _ hr
  · intro P fuel d e d' hr
    exact ((pres_ReadObject P fuel d).2 _ _ hr).1
  · intro d m
    rfl
  · intro P fuel d o hsh hns hl htx
    unfold recallByOffset recallByOffsetGo
    rw [if_neg (by simp [hns]), hl]
    simp only
    rw [htx]
  · intro P fuel d hsh hor htx
    unfold recallByHash recallByHashGo
    have hnone : (if P.isSeekable then alookup d.hashToOffset hsh else none) = none := by
      rcases hor with hs | hl
      · simp [hs]
      · by_cases hs2 : P.isSeekable <;> simp [hs2, hl]
    rw [hnone]
    simp only
    rw [htx]
  · intro P fuel n d t obj d' e t' htx hro hset
    have hd' : d'.tx = none := ((pres_ReadObject P fuel d).1 _ _ hro).trans htx
    unfold readObjectsTxLoop
    rw [hro]
    simp only
    rw [hset]
    simp only
    rw [hd']

/-- C10 witness: on the non-seekable `Pn` with offset 7 indexed and `tx`
nil, `recallByOffset` crashes; and the transactional loop over `P1` with
the failing store `st1` crashes at the rollback; via `C10_tx_nil`. -/
theorem C10_tx_nil_witness :
    (Pn.isSeekable = false ∧ alookup dna.offsetToHash 7 = some 3 ∧ dna.tx = none ∧
     recallByOffset Pn 1 dna 7 = .crash) ∧
    (d1s.tx = none ∧ ReadObject P1 1 d1s = .ok objW d1sRes ∧
     txSetObject (txBegin st1) objW = (.error (.storeSet 0), txBegin st1) ∧
     readObjectsTxLoop P1 1 1 d1s (txBegin st1) = .crash) :=
  ⟨⟨rfl, by decide, rfl,
    C10_tx_nil.2.2.2.2.2.1 Pn 1 dna 7 3 rfl (by decide) rfl⟩,
   ⟨rfl, by decide, by decide,
    C10_tx_nil.2.2.2.2.2.2.2 P1 1 0 d1s (txBegin st1) objW d1sRes (Err.storeSet 0)
      (txBegin st1) rfl (by decide) (by decide)⟩⟩

end Packfile
